import Mathlib

/-!
Verification of the CESIS_multiview Camera Session & Control Protocol Layer.

This file shallowly embeds the two cores of `server.js`:

* the stream-session manager (`/api/stream/start|stop|status/:cameraId`
  handlers over the `activeStreams` Map), and
* the HTTP Digest Authentication client
  (`parseDigestHeader`, `md5`, `authenticate`, `fetchWithDigest`).

Machine-level details are made explicit: MD5 is implemented over `Nat`
byte lists (32-bit arithmetic is `% 2^32`), JavaScript `undefined`
interpolation into template literals is modelled by a defaulting lookup,
and the `(\w+)=((?:"[^"]+")|[^,]+)` global-regex loop of
`parseDigestHeader` is modelled by an explicit scanner with the same
earliest-match / greedy semantics.
-/

set_option maxRecDepth 100000

namespace CESIS

/-! ### MD5 (RFC 1321), over `Nat` bytes, 32-bit words as `Nat % 2^32` -/

def M32 : Nat := 4294967296

def add32 (a b : Nat) : Nat := (a + b) % M32

def not32 (x : Nat) : Nat := Nat.xor x 4294967295

def rotl32 (x n : Nat) : Nat :=
  Nat.lor (Nat.shiftLeft x n) (Nat.shiftRight x (32 - n)) % M32

def md5F (b c d : Nat) : Nat := Nat.lor (Nat.land b c) (Nat.land (not32 b) d)

def md5G (b c d : Nat) : Nat := Nat.lor (Nat.land b d) (Nat.land c (not32 d))

def md5H (b c d : Nat) : Nat := Nat.xor (Nat.xor b c) d

def md5I (b c d : Nat) : Nat := Nat.xor c (Nat.lor b (not32 d))

def md5K : List Nat :=
  [0xd76aa478, 0xe8c7b756, 0x242070db, 0xc1bdceee,
   0xf57c0faf, 0x4787c62a, 0xa8304613, 0xfd469501,
   0x698098d8, 0x8b44f7af, 0xffff5bb1, 0x895cd7be,
   0x6b901122, 0xfd987193, 0xa679438e, 0x49b40821,
   0xf61e2562, 0xc040b340, 0x265e5a51, 0xe9b6c7aa,
   0xd62f105d, 0x02441453, 0xd8a1e681, 0xe7d3fbc8,
   0x21e1cde6, 0xc33707d6, 0xf4d50d87, 0x455a14ed,
   0xa9e3e905, 0xfcefa3f8, 0x676f02d9, 0x8d2a4c8a,
   0xfffa3942, 0x8771f681, 0x6d9d6122, 0xfde5380c,
   0xa4beea44, 0x4bdecfa9, 0xf6bb4b60, 0xbebfbc70,
   0x289b7ec6, 0xeaa127fa, 0xd4ef3085, 0x04881d05,
   0xd9d4d039, 0xe6db99e5, 0x1fa27cf8, 0xc4ac5665,
   0xf4292244, 0x432aff97, 0xab9423a7, 0xfc93a039,
   0x655b59c3, 0x8f0ccc92, 0xffeff47d, 0x85845dd1,
   0x6fa87e4f, 0xfe2ce6e0, 0xa3014314, 0x4e0811a1,
   0xf7537e82, 0xbd3af235, 0x2ad7d2bb, 0xeb86d391]

def md5S : List Nat :=
  [7, 12, 17, 22, 7, 12, 17, 22, 7, 12, 17, 22, 7, 12, 17, 22,
   5, 9, 14, 20, 5, 9, 14, 20, 5, 9, 14, 20, 5, 9, 14, 20,
   4, 11, 16, 23, 4, 11, 16, 23, 4, 11, 16, 23, 4, 11, 16, 23,
   6, 10, 15, 21, 6, 10, 15, 21, 6, 10, 15, 21, 6, 10, 15, 21]

structure MD5St where
  a : Nat
  b : Nat
  c : Nat
  d : Nat

def md5Init : MD5St :=
  { a := 0x67452301, b := 0xefcdab89, c := 0x98badcfe, d := 0x10325476 }

/-- Little-endian 32-bit word `i` of a 64-byte block. -/
def leWord (bs : List Nat) (i : Nat) : Nat :=
  bs.getD (4 * i) 0 + 256 * bs.getD (4 * i + 1) 0 +
    65536 * bs.getD (4 * i + 2) 0 + 16777216 * bs.getD (4 * i + 3) 0

def md5Step (block : List Nat) (st : MD5St) (i : Nat) : MD5St :=
  let fg : Nat × Nat :=
    if i < 16 then (md5F st.b st.c st.d, i)
    else if i < 32 then (md5G st.b st.c st.d, (5 * i + 1) % 16)
    else if i < 48 then (md5H st.b st.c st.d, (3 * i + 5) % 16)
    else (md5I st.b st.c st.d, (7 * i) % 16)
  let t := add32 (add32 (add32 fg.1 st.a) (md5K.getD i 0)) (leWord block fg.2)
  { a := st.d, b := add32 st.b (rotl32 t (md5S.getD i 0)), c := st.b, d := st.c }

def md5ProcessBlock (st : MD5St) (block : List Nat) : MD5St :=
  let r := (List.range 64).foldl (md5Step block) st
  { a := add32 st.a r.a, b := add32 st.b r.b,
    c := add32 st.c r.c, d := add32 st.d r.d }

/-- The `count` little-endian bytes of `n`. -/
def leBytes (n : Nat) : Nat → List Nat
  | 0 => []
  | k + 1 => n % 256 :: leBytes (n / 256) k

/-- MD5 padding: a `0x80` byte, zeros to 56 mod 64, then the 64-bit
little-endian bit length. -/
def md5Pad (msg : List Nat) : List Nat :=
  msg ++ 128 :: (List.replicate ((119 - msg.length % 64) % 64) 0 ++
    leBytes (8 * msg.length) 8)

/-- Split into 64-byte blocks; the first argument is fuel (any bound of
at least the number of blocks). -/
def chunks64 : Nat → List Nat → List (List Nat)
  | 0, _ => []
  | _ + 1, [] => []
  | fuel + 1, l => l.take 64 :: chunks64 fuel (l.drop 64)

def md5Bytes (msg : List Nat) : List Nat :=
  let padded := md5Pad msg
  let fin := (chunks64 padded.length padded).foldl md5ProcessBlock md5Init
  (leBytes fin.a 4 ++ leBytes fin.b 4) ++ (leBytes fin.c 4 ++ leBytes fin.d 4)

def hexDigitChar (n : Nat) : Char :=
  if n < 10 then Char.ofNat (48 + n) else Char.ofNat (87 + n)

def byteToHex (b : Nat) : List Char := [hexDigitChar (b / 16), hexDigitChar (b % 16)]

/-- The `md5(value)` helper of `server.js`: hex digest of the UTF-8 bytes (all
strings hashed by this client are ASCII, where UTF-8 bytes coincide with
the code points). -/
def md5 (s : String) : String :=
  String.mk ((md5Bytes (s.data.map Char.toNat)).map byteToHex).flatten

/-! ### Association-list maps with JavaScript overwrite semantics

These model both plain JS objects (`params[key] = value`), the `Headers`
object (`headers.set`), and the `Map` registry (`set`/`get`/`has`/`delete`). -/

def mapHas (l : List (String × α)) (k : String) : Bool :=
  l.any (fun p => p.1 = k)

def mapGet (l : List (String × α)) (k : String) : Option α :=
  (l.find? (fun p => p.1 = k)).map (fun p => p.2)

def mapSet (l : List (String × α)) (k : String) (v : α) : List (String × α) :=
  if mapHas l k then l.map (fun p => if p.1 = k then (k, v) else p)
  else l ++ [(k, v)]

def mapDelete (l : List (String × α)) (k : String) : List (String × α) :=
  l.filter (fun p => ¬ p.1 = k)

/-! ### `parseDigestHeader`

The JS code runs the global regex `(\w+)=((?:"[^"]+")|[^,]+)` in an
`exec` loop over the text after `"Digest "`.  The scanner below has the
same semantics: find the earliest position where a run of word
characters is followed by `=` and a value — either `"[^"]+"` (greedy,
preferred) or a greedy non-empty run of non-comma characters — record
the pair, and resume after the match; on a failed attempt advance one
character.  Each recorded value is `trim()`ed and, when it both starts
and ends with a double quote, stripped of those quotes. -/

def isWordChar (c : Char) : Bool := c.isAlphanum || c = '_'

def jsTrim (l : List Char) : List Char :=
  ((l.dropWhile Char.isWhitespace).reverse.dropWhile Char.isWhitespace).reverse

def processValue (v : List Char) : List Char :=
  let t := jsTrim v
  if t.head? = some '"' ∧ t.getLast? = some '"' then (t.drop 1).dropLast else t

/-- Match the value part `((?:"[^"]+")|[^,]+)` at the front of `l`:
returns the raw matched characters and the remainder, or `none`. -/
def matchValue (l : List Char) : Option (List Char × List Char) :=
  match l with
  | [] => none
  | c :: cs =>
    if c = '"' then
      match cs.dropWhile (fun x => ¬ x = '"'), cs.takeWhile (fun x => ¬ x = '"') with
      | '"' :: rest2, i :: inner => some ('"' :: (i :: inner) ++ ['"'], rest2)
      | _, _ =>
        some ((c :: cs).takeWhile (fun x => ¬ x = ','),
              (c :: cs).dropWhile (fun x => ¬ x = ','))
    else if c = ',' then none
    else
      some ((c :: cs).takeWhile (fun x => ¬ x = ','),
            (c :: cs).dropWhile (fun x => ¬ x = ','))

/-- The `regex.exec` loop; fuel is any bound of at least the length of
the remaining text. -/
def scanParams : Nat → List Char → List (String × String) → List (String × String)
  | 0, _, acc => acc
  | _ + 1, [], acc => acc
  | fuel + 1, c :: cs, acc =>
    if isWordChar c then
      match (c :: cs).dropWhile isWordChar with
      | '=' :: rest2 =>
        match matchValue rest2 with
        | some (v, rest3) =>
            scanParams fuel rest3
              (mapSet acc (String.mk ((c :: cs).takeWhile isWordChar))
                (String.mk (processValue v)))
        | none => scanParams fuel cs acc
      | _ => scanParams fuel cs acc
    else scanParams fuel cs acc

inductive AuthError
  | protocolError
  | missingCredentials
deriving DecidableEq

/-- JS `String.prototype.startsWith`, structurally over the character
lists. -/
def listIsPrefixOf : List Char → List Char → Bool
  | [], _ => true
  | _ :: _, [] => false
  | a :: as, b :: bs => a = b && listIsPrefixOf as bs

/-- The challenge parser `parseDigestHeader(header)`: throws (`ProtocolError`) exactly when
the header is absent, empty, or does not start with `"Digest "`
(JS `!header || !header.startsWith("Digest ")`; the empty string is
falsy and also fails the prefix test). -/
def parseDigestHeader (header : Option String) : Except AuthError (List (String × String)) :=
  match header with
  | none => .error .protocolError
  | some h =>
    if listIsPrefixOf "Digest ".data h.data then
      .ok (scanParams (h.data.drop 7).length (h.data.drop 7) [])
    else .error .protocolError

/-! ### `authenticate`

`params.realm`, `params.nonce`, `params.qop` are interpolated into JS
template literals; a missing property interpolates as the string
`"undefined"`.  `cnonce` is `crypto.randomBytes(8).toString("hex")` —
random, so it is a parameter here. -/

def jsProp (l : List (String × String)) (k : String) : String :=
  ((l.find? (fun p => p.1 = k)).map (fun p => p.2)).getD "undefined"

def digestNc : String := "00000001"

def digestHA1 (params : List (String × String)) (username password : String) : String :=
  md5 (username ++ ":" ++ jsProp params "realm" ++ ":" ++ password)

def digestHA2 (method digestUri : String) : String :=
  md5 (method ++ ":" ++ digestUri)

def digestResponse (params : List (String × String))
    (method digestUri username password cnonce : String) : String :=
  md5 (digestHA1 params username password ++ ":" ++ jsProp params "nonce" ++ ":" ++
    digestNc ++ ":" ++ cnonce ++ ":" ++ jsProp params "qop" ++ ":" ++
    digestHA2 method digestUri)

def authenticate (params : List (String × String))
    (method digestUri username password cnonce : String) : Except AuthError String :=
  if username = "" ∨ password = "" then .error .missingCredentials
  else
    .ok ("Digest username=\"" ++ username ++ "\", realm=\"" ++ jsProp params "realm" ++
      "\", nonce=\"" ++ jsProp params "nonce" ++ "\", uri=\"" ++ digestUri ++
      "\", algorithm=MD5, response=\"" ++
      digestResponse params method digestUri username password cnonce ++
      "\", qop=" ++ jsProp params "qop" ++ ", nc=" ++ digestNc ++
      ", cnonce=\"" ++ cnonce ++ "\"")

/-! ### `fetchWithDigest`

The network is an oracle `net : Request → Response`; the function
returns the final outcome together with the list of requests it issued,
in order.  The target URL appears already split into `pathname` and
`search` (the platform's `new URL(...)` is the external parser; the code
uses `uri.pathname + uri.search` as the digest URI). -/

structure UrlParts where
  pathname : String
  search : String
deriving DecidableEq

structure Request where
  url : UrlParts
  method : String
  body : Option String
  headers : List (String × String)
deriving DecidableEq

structure Response where
  status : Nat
  wwwAuthenticate : Option String
deriving DecidableEq

def fetchWithDigest (net : Request → Response) (url : UrlParts) (method : String)
    (body : Option String) (headers : List (String × String))
    (username password cnonce : String) :
    Except AuthError Response × List Request :=
  let req1 : Request := { url := url, method := method, body := body, headers := headers }
  let initialResponse := net req1
  if initialResponse.status ≠ 401 then (.ok initialResponse, [req1])
  else
    match parseDigestHeader initialResponse.wwwAuthenticate with
    | .error e => (.error e, [req1])
    | .ok params =>
      match authenticate params method (url.pathname ++ url.search)
          username password cnonce with
      | .error e => (.error e, [req1])
      | .ok authHeader =>
        let req2 : Request := { url := url, method := method, body := body,
                                headers := mapSet headers "Authorization" authHeader }
        (.ok (net req2), [req1, req2])

/-! ### StreamSessionManager

The registry is the `activeStreams` Map (cameraId → ffmpeg child
process); a process handle is modelled by a `Nat` identifier drawn from
`nextPid`.  `spawnCount` counts calls to `spawn`.  Each Express handler
runs synchronously from entry to response — there is no `await` or other
yield point inside any of them — so in the single-threaded event-loop
model a handler execution is one atomic step, and concurrent requests
are interleavings of whole handler executions. -/

structure StreamCfg where
  id : String
  url : String
deriving DecidableEq

structure Config where
  streams : List StreamCfg
deriving DecidableEq

structure ServerState where
  activeStreams : List (String × Nat)
  nextPid : Nat
  spawnCount : Nat
deriving DecidableEq

/-- The observable side-effecting actions of the start handler, in
program order: ensure the camera directory exists, `spawn('ffmpeg', …)`,
`activeStreams.set(cameraId, ffmpeg)`. -/
inductive StartAction
  | mkdir (cameraId : String)
  | spawnProc (cameraId : String)
  | insert (cameraId : String)
deriving DecidableEq

inductive StartResult
  | notFound
  | alreadyRunning (url : String)
  | started (url : String)
deriving DecidableEq

inductive StopResult
  | notActive
  | stopped
deriving DecidableEq

structure StatusResult where
  active : Bool
  hlsUrl : Option String
deriving DecidableEq

def hlsUrlOf (cameraId : String) : String := "/hls/" ++ cameraId ++ "/stream.m3u8"

/-- Handler for `GET /api/stream/start/:cameraId`.  Returns the JSON result, the new
state, and the ordered list of side-effecting actions performed. -/
def startHandler (cfg : Config) (st : ServerState) (cameraId : String) :
    StartResult × ServerState × List StartAction :=
  match cfg.streams.find? (fun s => s.id = cameraId) with
  | none => (.notFound, st, [])
  | some _ =>
    if mapHas st.activeStreams cameraId then
      (.alreadyRunning (hlsUrlOf cameraId), st, [])
    else
      (.started (hlsUrlOf cameraId),
       { activeStreams := mapSet st.activeStreams cameraId st.nextPid,
         nextPid := st.nextPid + 1,
         spawnCount := st.spawnCount + 1 },
       [.mkdir cameraId, .spawnProc cameraId, .insert cameraId])

/-- Handler for `GET /api/stream/stop/:cameraId`: 404 `Stream not active` when the
registry has no entry, otherwise `kill('SIGTERM')` and synchronous
`activeStreams.delete(cameraId)`. -/
def stopHandler (st : ServerState) (cameraId : String) : StopResult × ServerState :=
  match mapGet st.activeStreams cameraId with
  | none => (.notActive, st)
  | some _ => (.stopped, { st with activeStreams := mapDelete st.activeStreams cameraId })

/-- Handler for `GET /api/stream/status/:cameraId`: a pure read, total for every
`cameraId`. -/
def statusHandler (st : ServerState) (cameraId : String) : StatusResult :=
  let isActive := mapHas st.activeStreams cameraId
  { active := isActive, hlsUrl := if isActive then some (hlsUrlOf cameraId) else none }

/-- The `ffmpeg.on('close', …)` / `ffmpeg.on('error', …)` observers
attached in `start`: both run `activeStreams.delete(cameraId)`. -/
def onProcessTerminated (st : ServerState) (cameraId : String) : ServerState :=
  { st with activeStreams := mapDelete st.activeStreams cameraId }

/-! ### Concrete inputs shared by witnesses and counterexamples -/

def sampleConfig : Config :=
  { streams := [{ id := "cam1", url := "rtsp://cam1.local/stream" }] }

def freshState : ServerState :=
  { activeStreams := [], nextPid := 0, spawnCount := 0 }

/-- A camera endpoint that requires no authentication. -/
def plainNet : Request → Response :=
  fun _ => { status := 200, wwwAuthenticate := none }

/-- A camera endpoint that issues a Digest challenge WITHOUT a nonce
parameter and accepts any request carrying an Authorization header. -/
def noNonceNet : Request → Response := fun r =>
  if mapHas r.headers "Authorization" then { status := 200, wwwAuthenticate := none }
  else { status := 401, wwwAuthenticate := some "Digest realm=\"R\", qop=\"auth\"" }

/-- The spec's round-trip URI, split as the platform URL parser does. -/
def sampleUrl : UrlParts := { pathname := "/axis-cgi/com/ptz.cgi", search := "?pan=1" }

/-! ### MD5 reference vectors (RFC 1321 appendix A.5) -/

theorem md5_rfc_vector_empty : md5 "" = "d41d8cd98f00b204e9800998ecf8427e" := by
  decide

theorem md5_rfc_vector_abc : md5 "abc" = "900150983cd24fb0d6963f7d28e17f72" := by
  decide

/-! ### Map lemmas -/

theorem mapHas_cons (p : String × α) (t : List (String × α)) (k : String) :
    mapHas (p :: t) k = (decide (p.1 = k) || mapHas t k) := rfl

theorem mapGet_cons (p : String × α) (t : List (String × α)) (k : String) :
    mapGet (p :: t) k = if p.1 = k then some p.2 else mapGet t k := by
  by_cases hp : p.1 = k <;> simp [mapGet, List.find?_cons, hp]

theorem mapHas_iff_isSome (l : List (String × α)) (k : String) :
    mapHas l k = (mapGet l k).isSome := by
  induction l with
  | nil => simp [mapHas, mapGet]
  | cons p t ih =>
    rw [mapHas_cons, mapGet_cons]
    by_cases hp : p.1 = k <;> simp [hp, ih]

theorem mapGet_replace (l : List (String × α)) (k : String) (v : α)
    (h : mapHas l k = true) :
    mapGet (l.map (fun p => if p.1 = k then (k, v) else p)) k = some v := by
  induction l with
  | nil => simp [mapHas] at h
  | cons p t ih =>
    rw [List.map_cons]
    by_cases hp : p.1 = k
    · rw [if_pos hp, mapGet_cons]
      simp
    · rw [if_neg hp, mapGet_cons, if_neg hp]
      rw [mapHas_cons] at h
      exact ih (by simpa [hp] using h)

theorem mapGet_append_single (l : List (String × α)) (k : String) (v : α)
    (h : mapHas l k = false) : mapGet (l ++ [(k, v)]) k = some v := by
  induction l with
  | nil => simp [mapGet, List.find?]
  | cons p t ih =>
    rw [mapHas_cons] at h
    obtain ⟨h1, h2⟩ := Bool.or_eq_false_iff.mp h
    have hp : ¬ p.1 = k := by simpa using h1
    rw [List.cons_append, mapGet_cons, if_neg hp]
    exact ih h2

theorem mapGet_mapSet_self (l : List (String × α)) (k : String) (v : α) :
    mapGet (mapSet l k v) k = some v := by
  by_cases hl : mapHas l k = true
  · rw [mapSet, if_pos hl]
    exact mapGet_replace l k v hl
  · rw [mapSet, if_neg hl]
    exact mapGet_append_single l k v (by simpa using hl)

theorem mapDelete_cons (p : String × α) (t : List (String × α)) (k : String) :
    mapDelete (p :: t) k = if p.1 = k then mapDelete t k else p :: mapDelete t k := by
  by_cases hp : p.1 = k <;> simp [mapDelete, List.filter_cons, hp]

theorem mapGet_mapDelete_self (l : List (String × α)) (k : String) :
    mapGet (mapDelete l k) k = none := by
  induction l with
  | nil => simp [mapDelete, mapGet]
  | cons p t ih =>
    rw [mapDelete_cons]
    by_cases hp : p.1 = k
    · rw [if_pos hp]
      exact ih
    · rw [if_neg hp, mapGet_cons, if_neg hp]
      exact ih

theorem mapDelete_of_not_has (l : List (String × α)) (k : String)
    (h : mapHas l k = false) : mapDelete l k = l := by
  induction l with
  | nil => rfl
  | cons p t ih =>
    rw [mapHas_cons] at h
    obtain ⟨h1, h2⟩ := Bool.or_eq_false_iff.mp h
    have hp : ¬ p.1 = k := by simpa using h1
    rw [mapDelete_cons, if_neg hp, ih h2]

theorem mapHas_mapSet_self (l : List (String × α)) (k : String) (v : α) :
    mapHas (mapSet l k v) k = true := by
  rw [mapHas_iff_isSome, mapGet_mapSet_self]
  rfl

theorem mapHas_mapDelete_self (l : List (String × α)) (k : String) :
    mapHas (mapDelete l k) k = false := by
  rw [mapHas_iff_isSome, mapGet_mapDelete_self]
  rfl

theorem mapGet_replace_ne (l : List (String × α)) (j k : String) (v : α)
    (h : ¬ k = j) :
    mapGet (l.map (fun p => if p.1 = j then (j, v) else p)) k = mapGet l k := by
  have hjk : ¬ j = k := fun hc => h hc.symm
  induction l with
  | nil => rfl
  | cons p t ih =>
    rw [List.map_cons]
    by_cases hp : p.1 = j
    · have hpk : ¬ p.1 = k := fun hc => hjk (hp ▸ hc)
      rw [if_pos hp, mapGet_cons, mapGet_cons, if_neg hpk]
      simp only [hjk, if_false]
      exact ih
    · rw [if_neg hp, mapGet_cons, mapGet_cons]
      by_cases hk : p.1 = k
      · rw [if_pos hk, if_pos hk]
      · rw [if_neg hk, if_neg hk]
        exact ih

theorem mapGet_append_one_ne (l : List (String × α)) (j k : String) (v : α)
    (h : ¬ k = j) : mapGet (l ++ [(j, v)]) k = mapGet l k := by
  have hjk : ¬ j = k := fun hc => h hc.symm
  induction l with
  | nil =>
    simp [mapGet_cons, mapGet, hjk]
  | cons p t ih =>
    rw [List.cons_append, mapGet_cons, mapGet_cons]
    by_cases hk : p.1 = k
    · rw [if_pos hk, if_pos hk]
    · rw [if_neg hk, if_neg hk, ih]

theorem mapGet_mapSet_ne (l : List (String × α)) (j k : String) (v : α)
    (h : ¬ k = j) : mapGet (mapSet l j v) k = mapGet l k := by
  rw [mapSet]
  by_cases hl : mapHas l j = true
  · rw [if_pos hl]
    exact mapGet_replace_ne l j k v h
  · rw [if_neg hl]
    exact mapGet_append_one_ne l j k v h

/-! ### `jsProp` lemmas -/

theorem jsProp_eq_getD (l : List (String × String)) (k : String) :
    jsProp l k = (mapGet l k).getD "undefined" := rfl

theorem jsProp_eq_of_mapGet (l : List (String × String)) (k v : String)
    (h : mapGet l k = some v) : jsProp l k = v := by
  rw [jsProp_eq_getD, h]
  rfl

theorem jsProp_mapSet_ne (l : List (String × String)) (j k v : String)
    (h : ¬ k = j) : jsProp (mapSet l j v) k = jsProp l k := by
  rw [jsProp_eq_getD, jsProp_eq_getD, mapGet_mapSet_ne l j k v h]

/-! ### Digest length lemmas: an MD5 hex digest always has 32 characters -/

theorem leBytes_length (c : Nat) : ∀ n : Nat, (leBytes n c).length = c := by
  induction c with
  | zero => intro n; rfl
  | succ k ih => intro n; simp [leBytes, ih]

theorem md5Bytes_length (msg : List Nat) : (md5Bytes msg).length = 16 := by
  simp [md5Bytes, leBytes_length]

theorem hexFlat_length (bs : List Nat) :
    ((bs.map byteToHex).flatten).length = 2 * bs.length := by
  induction bs with
  | nil => rfl
  | cons b t ih =>
    simp [byteToHex, ih]
    ring

theorem md5_length (s : String) : (md5 s).length = 32 := by
  show ((((md5Bytes (s.data.map Char.toNat)).map byteToHex).flatten)).length = 32
  rw [hexFlat_length, md5Bytes_length]

/-! ### takeWhile / dropWhile over an all-satisfying prefix -/

theorem takeWhile_append_all (p : α → Bool) (v w : List α)
    (h : ∀ c ∈ v, p c = true) :
    (v ++ w).takeWhile p = v ++ w.takeWhile p := by
  induction v with
  | nil => rfl
  | cons a t ih =>
    rw [List.cons_append, List.takeWhile_cons, h a (by simp), if_pos rfl,
      List.cons_append, ih fun c hc => h c (by simp [hc])]

theorem dropWhile_append_all (p : α → Bool) (v w : List α)
    (h : ∀ c ∈ v, p c = true) :
    (v ++ w).dropWhile p = w.dropWhile p := by
  induction v with
  | nil => rfl
  | cons a t ih =>
    rw [List.cons_append, List.dropWhile_cons, h a (by simp)]
    exact ih fun c hc => h c (by simp [hc])

/-! ### Scanner lemmas for `parseDigestHeader` -/

theorem scanParams_nil (fuel : Nat) (acc : List (String × String)) :
    scanParams fuel [] acc = acc := by
  cases fuel <;> rfl

/-- The quoted alternative of the value regex on a well-formed quoted
value: `"[^"]+"` matches greedily and leaves the remainder empty. -/
theorem matchValue_quoted (vi : Char) (vt : List Char)
    (hv : ∀ c ∈ vi :: vt, ¬ c = '"') :
    matchValue ('"' :: vi :: (vt ++ ['"'])) = some ('"' :: vi :: (vt ++ ['"']), []) := by
  have hall : ∀ c ∈ vi :: vt, (fun x => !decide (x = '"')) c = true := by
    intro c hc
    simpa using hv c hc
  have hdw : List.dropWhile (fun x => !decide (x = '"')) (vi :: (vt ++ ['"'])) = ['"'] := by
    have h := dropWhile_append_all (fun x => !decide (x = '"')) (vi :: vt) ['"'] hall
    simpa [List.dropWhile_cons] using h
  have htw : List.takeWhile (fun x => !decide (x = '"')) (vi :: (vt ++ ['"'])) =
      vi :: vt := by
    have h := takeWhile_append_all (fun x => !decide (x = '"')) (vi :: vt) ['"'] hall
    simpa [List.takeWhile_cons] using h
  simp [matchValue, hdw, htw]

/-- Applying `trim()` then quote-stripping on a well-formed quoted value returns
the inner characters. -/
theorem processValue_quoted (vi : Char) (vt : List Char) :
    processValue ('"' :: vi :: (vt ++ ['"'])) = vi :: vt := by
  have hrev : ('"' :: vi :: (vt ++ ['"'])).reverse =
      '"' :: ((vi :: vt).reverse ++ ['"']) := by
    simp
  have htrim : jsTrim ('"' :: vi :: (vt ++ ['"'])) = '"' :: vi :: (vt ++ ['"']) := by
    rw [jsTrim,
      show List.dropWhile Char.isWhitespace ('"' :: vi :: (vt ++ ['"'])) =
        '"' :: vi :: (vt ++ ['"']) from rfl,
      hrev,
      show List.dropWhile Char.isWhitespace ('"' :: ((vi :: vt).reverse ++ ['"'])) =
        '"' :: ((vi :: vt).reverse ++ ['"']) from rfl]
    simp
  have hlast : ('"' :: vi :: (vt ++ ['"'])).getLast? = some '"' := by
    rw [show ('"' :: vi :: (vt ++ ['"'])) = ('"' :: vi :: vt) ++ ['"'] by simp]
    exact List.getLast?_concat _
  simp only [processValue, htrim]
  rw [if_pos ⟨rfl, hlast⟩,
    show ('"' :: vi :: (vt ++ ['"'])).drop 1 = vi :: (vt ++ ['"']) from rfl,
    show vi :: (vt ++ ['"']) = (vi :: vt) ++ ['"'] by simp,
    List.dropLast_concat]

/-- One full scan step over `nonce="<inner>"` with any positive fuel:
the pair is recorded with the quotes stripped. -/
theorem scanParams_nonce_quoted (fuel : Nat) (hf : 0 < fuel) (vi : Char) (vt : List Char)
    (hv : ∀ c ∈ vi :: vt, ¬ c = '"') :
    scanParams fuel
      ('n' :: 'o' :: 'n' :: 'c' :: 'e' :: '=' :: '"' :: vi :: (vt ++ ['"'])) [] =
    [("nonce", String.mk (vi :: vt))] := by
  cases fuel with
  | zero => exact absurd hf (by simp)
  | succ n =>
    have hdw2 : List.dropWhile isWordChar
        ('n' :: 'o' :: 'n' :: 'c' :: 'e' :: '=' :: '"' :: vi :: (vt ++ ['"'])) =
        '=' :: '"' :: vi :: (vt ++ ['"']) := rfl
    have htw2 : List.takeWhile isWordChar
        ('n' :: 'o' :: 'n' :: 'c' :: 'e' :: '=' :: '"' :: vi :: (vt ++ ['"'])) =
        ['n', 'o', 'n', 'c', 'e'] := rfl
    have hmv := matchValue_quoted vi vt hv
    have hpv := processValue_quoted vi vt
    simp only [scanParams, hdw2, htw2, hmv, hpv,
      show isWordChar 'n' = true from rfl, if_true, scanParams_nil]
    simp [mapSet, mapHas, show String.mk ['n', 'o', 'n', 'c', 'e'] = "nonce" from rfl]

/-- Claim C10: `parseDigestHeader` never errors on a header starting
with `"Digest "` — its `ProtocolError` branch fires exactly when the
header is absent or lacks that prefix — and quoted values are recorded
with the surrounding quotes stripped. -/
theorem claim_C10 :
    parseDigestHeader none = .error .protocolError ∧
    (∀ h : String, listIsPrefixOf "Digest ".data h.data = false →
      parseDigestHeader (some h) = .error .protocolError) ∧
    (∀ h : String, listIsPrefixOf "Digest ".data h.data = true →
      ∃ m, parseDigestHeader (some h) = .ok m) ∧
    (∀ (vi : Char) (vt : List Char), (∀ c ∈ vi :: vt, ¬ c = '"') →
      parseDigestHeader (some (String.mk ('D' :: 'i' :: 'g' :: 'e' :: 's' :: 't' :: ' ' ::
          'n' :: 'o' :: 'n' :: 'c' :: 'e' :: '=' :: '"' :: vi :: (vt ++ ['"'])))) =
        .ok [("nonce", String.mk (vi :: vt))]) := by
  refine ⟨rfl, ?_, ?_, ?_⟩
  · intro h hpre
    simp [parseDigestHeader, hpre]
  · intro h hpre
    exact ⟨scanParams (h.data.drop 7).length (h.data.drop 7) [],
      by simp [parseDigestHeader, hpre]⟩
  · intro vi vt hv
    have hstep : parseDigestHeader (some (String.mk ('D' :: 'i' :: 'g' :: 'e' :: 's' ::
        't' :: ' ' :: 'n' :: 'o' :: 'n' :: 'c' :: 'e' :: '=' :: '"' :: vi ::
        (vt ++ ['"'])))) =
        .ok (scanParams
          ('n' :: 'o' :: 'n' :: 'c' :: 'e' :: '=' :: '"' :: vi :: (vt ++ ['"'])).length
          ('n' :: 'o' :: 'n' :: 'c' :: 'e' :: '=' :: '"' :: vi :: (vt ++ ['"'])) []) := rfl
    rw [hstep]
    exact congrArg Except.ok (scanParams_nonce_quoted _ (by simp) vi vt hv)

/-- Witness for C10: an accepted Digest header, a rejected Basic header,
and a concrete quoted nonce whose quotes are stripped. -/
theorem claim_C10_witness :
    (∃ m, parseDigestHeader (some "Digest realm=\"R\", qop=auth") = .ok m) ∧
    parseDigestHeader (some "Basic realm=\"R\"") = .error .protocolError ∧
    parseDigestHeader (some (String.mk ('D' :: 'i' :: 'g' :: 'e' :: 's' :: 't' :: ' ' ::
        'n' :: 'o' :: 'n' :: 'c' :: 'e' :: '=' :: '"' :: 'N' :: ([] ++ ['"'])))) =
      .ok [("nonce", String.mk ['N'])] :=
  ⟨claim_C10.2.2.1 "Digest realm=\"R\", qop=auth" (by decide),
   claim_C10.2.1 "Basic realm=\"R\"" (by decide),
   claim_C10.2.2.2 'N' [] (by decide)⟩

/-! ### Claims about the StreamSessionManager -/

theorem startStopStatusAux (st1 : ServerState) (id : String)
    (h : mapHas st1.activeStreams id = true) :
    statusHandler st1 id = { active := true, hlsUrl := some (hlsUrlOf id) } ∧
    (stopHandler st1 id).1 = .stopped ∧
    statusHandler (stopHandler st1 id).2 id = { active := false, hlsUrl := none } ∧
    (stopHandler (stopHandler st1 id).2 id).1 = .notActive := by
  obtain ⟨v, hv⟩ : ∃ v, mapGet st1.activeStreams id = some v := by
    rw [mapHas_iff_isSome] at h
    exact Option.isSome_iff_exists.mp h
  refine ⟨by simp [statusHandler, h], ?_, ?_, ?_⟩
  · simp [stopHandler, hv]
  · simp [stopHandler, hv, statusHandler, mapHas_mapDelete_self]
  · simp [stopHandler, hv, mapGet_mapDelete_self]

/-- Claim C5: after `start(cameraId)` succeeds (does not report
`NotFound`), `status(cameraId)` reports `active: true` with a non-null
`hlsUrl`; after `stop(cameraId)`, `status(cameraId)` reports
`active: false` with `hlsUrl` null; a second `stop(cameraId)` fails with
`NotActive`; and `status` is a total pure read of the registry for every
`cameraId` (it never errors). -/
theorem claim_C5 (cfg : Config) (st : ServerState) (cameraId : String)
    (h : ¬ (startHandler cfg st cameraId).1 = .notFound) :
    statusHandler (startHandler cfg st cameraId).2.1 cameraId =
      { active := true, hlsUrl := some (hlsUrlOf cameraId) } ∧
    (stopHandler (startHandler cfg st cameraId).2.1 cameraId).1 = .stopped ∧
    statusHandler (stopHandler (startHandler cfg st cameraId).2.1 cameraId).2 cameraId =
      { active := false, hlsUrl := none } ∧
    (stopHandler (stopHandler (startHandler cfg st cameraId).2.1 cameraId).2 cameraId).1 =
      .notActive ∧
    (statusHandler st cameraId).active = mapHas st.activeStreams cameraId ∧
    (statusHandler st cameraId).hlsUrl.isSome = (statusHandler st cameraId).active := by
  have hasAfter : mapHas (startHandler cfg st cameraId).2.1.activeStreams cameraId = true := by
    cases hfind : cfg.streams.find? (fun s => s.id = cameraId) with
    | none => exact absurd (by simp [startHandler, hfind]) h
    | some s =>
      by_cases hact : mapHas st.activeStreams cameraId = true
      · simp [startHandler, hfind, hact]
      · simp [startHandler, hfind, hact, mapHas_mapSet_self]
  obtain ⟨h1, h2, h3, h4⟩ := startStopStatusAux _ cameraId hasAfter
  refine ⟨h1, h2, h3, h4, rfl, ?_⟩
  by_cases hact : mapHas st.activeStreams cameraId = true <;> simp [statusHandler, hact]

/-- Witness for C5 at a concrete camera and a fresh state. -/
theorem claim_C5_witness :
    statusHandler (startHandler sampleConfig freshState "cam1").2.1 "cam1" =
      { active := true, hlsUrl := some (hlsUrlOf "cam1") } ∧
    (stopHandler (startHandler sampleConfig freshState "cam1").2.1 "cam1").1 = .stopped ∧
    statusHandler (stopHandler (startHandler sampleConfig freshState "cam1").2.1 "cam1").2
        "cam1" = { active := false, hlsUrl := none } ∧
    (stopHandler (stopHandler (startHandler sampleConfig freshState "cam1").2.1 "cam1").2
        "cam1").1 = .notActive ∧
    (statusHandler freshState "cam1").active = mapHas freshState.activeStreams "cam1" ∧
    (statusHandler freshState "cam1").hlsUrl.isSome = (statusHandler freshState "cam1").active :=
  claim_C5 sampleConfig freshState "cam1" (by decide)

/-- Claim C4: for a known camera not currently registered, two
back-to-back `start` calls spawn exactly one process; the first returns
`started` and the second `already_running` with the same `hlsUrl`, and
the second call changes nothing. -/
theorem claim_C4 (cfg : Config) (st : ServerState) (cameraId : String) (s : StreamCfg)
    (hfind : cfg.streams.find? (fun c => c.id = cameraId) = some s)
    (hfresh : mapHas st.activeStreams cameraId = false) :
    (startHandler cfg st cameraId).1 = .started (hlsUrlOf cameraId) ∧
    (startHandler cfg (startHandler cfg st cameraId).2.1 cameraId).1 =
      .alreadyRunning (hlsUrlOf cameraId) ∧
    (startHandler cfg (startHandler cfg st cameraId).2.1 cameraId).2.1 =
      (startHandler cfg st cameraId).2.1 ∧
    (startHandler cfg st cameraId).2.1.spawnCount = st.spawnCount + 1 ∧
    (startHandler cfg (startHandler cfg st cameraId).2.1 cameraId).2.1.spawnCount =
      st.spawnCount + 1 ∧
    (startHandler cfg (startHandler cfg st cameraId).2.1 cameraId).2.2 = [] := by
  have e1 : startHandler cfg st cameraId =
      (.started (hlsUrlOf cameraId),
       { activeStreams := mapSet st.activeStreams cameraId st.nextPid,
         nextPid := st.nextPid + 1, spawnCount := st.spawnCount + 1 },
       [.mkdir cameraId, .spawnProc cameraId, .insert cameraId]) := by
    simp [startHandler, hfind, hfresh]
  rw [e1]
  simp [startHandler, hfind, mapHas_mapSet_self]

/-- Witness for C4 at a concrete camera and a fresh state. -/
theorem claim_C4_witness :
    (startHandler sampleConfig freshState "cam1").1 = .started (hlsUrlOf "cam1") ∧
    (startHandler sampleConfig (startHandler sampleConfig freshState "cam1").2.1 "cam1").1 =
      .alreadyRunning (hlsUrlOf "cam1") ∧
    (startHandler sampleConfig (startHandler sampleConfig freshState "cam1").2.1 "cam1").2.1 =
      (startHandler sampleConfig freshState "cam1").2.1 ∧
    (startHandler sampleConfig freshState "cam1").2.1.spawnCount =
      freshState.spawnCount + 1 ∧
    (startHandler sampleConfig (startHandler sampleConfig freshState "cam1").2.1
        "cam1").2.1.spawnCount = freshState.spawnCount + 1 ∧
    (startHandler sampleConfig (startHandler sampleConfig freshState "cam1").2.1 "cam1").2.2 =
      [] :=
  claim_C4 sampleConfig freshState "cam1"
    { id := "cam1", url := "rtsp://cam1.local/stream" } (by decide) (by decide)

/-- Claim C3 counterexample: the registry insertion is NOT the very
first synchronous action of the start handler — the handler first
ensures the output directory and spawns the process, and only then runs
`activeStreams.set`; the trace shows the insert last, not first. -/
theorem claim_C3_counterexample :
    ¬ ((startHandler sampleConfig freshState "cam1").2.2.head? =
        some (StartAction.insert "cam1")) ∧
    (startHandler sampleConfig freshState "cam1").2.2 =
      [.mkdir "cam1", .spawnProc "cam1", .insert "cam1"] := by
  decide

/-- Claim C3 (amended): for a known, unregistered camera the start
handler performs mkdir, one spawn and the registry insert in that order
within a single synchronous handler execution (no yield point), so under
event-loop atomicity a second concurrent `start` for the same camera
observes the entry, spawns nothing and returns `already_running`:
exactly one process is spawned across the pair. -/
theorem claim_C3 (cfg : Config) (st : ServerState) (cameraId : String) (s : StreamCfg)
    (hfind : cfg.streams.find? (fun c => c.id = cameraId) = some s)
    (hfresh : mapHas st.activeStreams cameraId = false) :
    (startHandler cfg st cameraId).2.2 =
      [.mkdir cameraId, .spawnProc cameraId, .insert cameraId] ∧
    (startHandler cfg st cameraId).2.2.count (.spawnProc cameraId) = 1 ∧
    (startHandler cfg (startHandler cfg st cameraId).2.1 cameraId).2.2 = [] ∧
    (startHandler cfg (startHandler cfg st cameraId).2.1 cameraId).1 =
      .alreadyRunning (hlsUrlOf cameraId) ∧
    (startHandler cfg (startHandler cfg st cameraId).2.1 cameraId).2.1.spawnCount =
      st.spawnCount + 1 := by
  have e1 : startHandler cfg st cameraId =
      (.started (hlsUrlOf cameraId),
       { activeStreams := mapSet st.activeStreams cameraId st.nextPid,
         nextPid := st.nextPid + 1, spawnCount := st.spawnCount + 1 },
       [.mkdir cameraId, .spawnProc cameraId, .insert cameraId]) := by
    simp [startHandler, hfind, hfresh]
  rw [e1]
  simp [startHandler, hfind, mapHas_mapSet_self, List.count_cons]

/-- Witness for C3 (amended) at a concrete camera and a fresh state. -/
theorem claim_C3_witness :
    (startHandler sampleConfig freshState "cam1").2.2 =
      [.mkdir "cam1", .spawnProc "cam1", .insert "cam1"] ∧
    (startHandler sampleConfig freshState "cam1").2.2.count (.spawnProc "cam1") = 1 ∧
    (startHandler sampleConfig (startHandler sampleConfig freshState "cam1").2.1 "cam1").2.2 =
      [] ∧
    (startHandler sampleConfig (startHandler sampleConfig freshState "cam1").2.1 "cam1").1 =
      .alreadyRunning (hlsUrlOf "cam1") ∧
    (startHandler sampleConfig (startHandler sampleConfig freshState "cam1").2.1
        "cam1").2.1.spawnCount = freshState.spawnCount + 1 :=
  claim_C3 sampleConfig freshState "cam1"
    { id := "cam1", url := "rtsp://cam1.local/stream" } (by decide) (by decide)

/-- Claim C6: when the transcoding process of a started session
terminates on its own (`close` or `error` observer), the registry entry
is removed so `status` reports inactive without an explicit stop; and if
the entry is already absent, the observer's removal is a no-op. -/
theorem claim_C6 (cfg : Config) (st : ServerState) (cameraId : String) :
    statusHandler (onProcessTerminated (startHandler cfg st cameraId).2.1 cameraId)
        cameraId = { active := false, hlsUrl := none } ∧
    (mapHas st.activeStreams cameraId = false → onProcessTerminated st cameraId = st) := by
  constructor
  · simp [statusHandler, onProcessTerminated, mapHas_mapDelete_self]
  · intro h
    rw [onProcessTerminated, mapDelete_of_not_has _ _ h]

/-- Witness for C6 at a concrete camera and a fresh state. -/
theorem claim_C6_witness :
    statusHandler (onProcessTerminated (startHandler sampleConfig freshState "cam1").2.1
        "cam1") "cam1" = { active := false, hlsUrl := none } ∧
    onProcessTerminated freshState "cam1" = freshState :=
  ⟨(claim_C6 sampleConfig freshState "cam1").1,
   (claim_C6 sampleConfig freshState "cam1").2 rfl⟩

/-- Claim C7: starting an unknown camera fails with `NotFound`, spawns
nothing, and leaves the whole state (registry included) unchanged. -/
theorem claim_C7 (cfg : Config) (st : ServerState) (cameraId : String)
    (h : cfg.streams.find? (fun s => s.id = cameraId) = none) :
    startHandler cfg st cameraId = (.notFound, st, []) := by
  simp [startHandler, h]

/-- Witness for C7 at a camera id absent from the configuration. -/
theorem claim_C7_witness :
    startHandler sampleConfig freshState "no-such-camera" = (.notFound, freshState, []) :=
  claim_C7 sampleConfig freshState "no-such-camera" (by decide)

/-! ### Claims about the DigestAuthClient computation -/

/-- Claim C1 counterexample: on the spec's own round-trip vector
(realm "R", nonce "N", qop "auth", method GET,
URI "/axis-cgi/com/ptz.cgi?pan=1", username "u", password "p", a fixed
cnonce), the response field computed by the code is NOT
`hash(HA1 : nonce : nc : qop : HA2)` — the code hashes the cnonce in
between `nc` and `qop` (as RFC 2617 requires for qop=auth). -/
theorem claim_C1_counterexample :
    ¬ (digestResponse [("realm", "R"), ("nonce", "N"), ("qop", "auth")] "GET"
        "/axis-cgi/com/ptz.cgi?pan=1" "u" "p" "0123456789abcdef" =
      md5 (digestHA1 [("realm", "R"), ("nonce", "N"), ("qop", "auth")] "u" "p" ++
        ":" ++ "N" ++ ":" ++ digestNc ++ ":" ++ "auth" ++ ":" ++
        digestHA2 "GET" "/axis-cgi/com/ptz.cgi?pan=1")) := by
  decide

/-- Claim C1 (amended): for every challenge carrying realm, nonce and
qop, every method, every URL (the digest URI being the request path plus
query string), non-empty username and password and any cnonce, the
client succeeds and the Authorization header carries
`HA1 = md5(username:realm:password)`, `HA2 = md5(method:digestURI)` and
`response = md5(HA1:nonce:nc:cnonce:qop:HA2)` with `nc = "00000001"`. -/
theorem claim_C1 (params : List (String × String)) (url : UrlParts)
    (method username password cnonce r n q : String)
    (hu : ¬ username = "") (hpw : ¬ password = "")
    (hr : mapGet params "realm" = some r) (hn : mapGet params "nonce" = some n)
    (hq : mapGet params "qop" = some q) :
    authenticate params method (url.pathname ++ url.search) username password cnonce =
      .ok ("Digest username=\"" ++ username ++ "\", realm=\"" ++ r ++
        "\", nonce=\"" ++ n ++ "\", uri=\"" ++ (url.pathname ++ url.search) ++
        "\", algorithm=MD5, response=\"" ++
        md5 (md5 (username ++ ":" ++ r ++ ":" ++ password) ++ ":" ++ n ++ ":" ++
          digestNc ++ ":" ++ cnonce ++ ":" ++ q ++ ":" ++
          md5 (method ++ ":" ++ (url.pathname ++ url.search))) ++
        "\", qop=" ++ q ++ ", nc=" ++ digestNc ++ ", cnonce=\"" ++ cnonce ++ "\"") := by
  have h1 := jsProp_eq_of_mapGet params "realm" r hr
  have h2 := jsProp_eq_of_mapGet params "nonce" n hn
  have h3 := jsProp_eq_of_mapGet params "qop" q hq
  rw [authenticate, if_neg (not_or.mpr ⟨hu, hpw⟩)]
  simp only [digestResponse, digestHA1, digestHA2, h1, h2, h3]

/-- Witness for C1 (amended) at the spec's round-trip vector. -/
theorem claim_C1_witness :
    authenticate [("realm", "R"), ("nonce", "N"), ("qop", "auth")] "GET"
        ("/axis-cgi/com/ptz.cgi" ++ "?pan=1") "u" "p" "0123456789abcdef" =
      .ok ("Digest username=\"" ++ "u" ++ "\", realm=\"" ++ "R" ++
        "\", nonce=\"" ++ "N" ++ "\", uri=\"" ++ ("/axis-cgi/com/ptz.cgi" ++ "?pan=1") ++
        "\", algorithm=MD5, response=\"" ++
        md5 (md5 ("u" ++ ":" ++ "R" ++ ":" ++ "p") ++ ":" ++ "N" ++ ":" ++
          digestNc ++ ":" ++ "0123456789abcdef" ++ ":" ++ "auth" ++ ":" ++
          md5 ("GET" ++ ":" ++ ("/axis-cgi/com/ptz.cgi" ++ "?pan=1"))) ++
        "\", qop=" ++ "auth" ++ ", nc=" ++ digestNc ++
        ", cnonce=\"" ++ "0123456789abcdef" ++ "\"") :=
  claim_C1 [("realm", "R"), ("nonce", "N"), ("qop", "auth")]
    { pathname := "/axis-cgi/com/ptz.cgi", search := "?pan=1" }
    "GET" "u" "p" "0123456789abcdef" "R" "N" "auth"
    (by decide) (by decide) rfl rfl rfl

/-- Claim C9 counterexample: with a challenge explicitly naming
algorithm SHA-256, the computed response is identical to the one for an
MD5 challenge and has the 32 hex characters of an MD5 digest, not the 64
of a SHA-256 digest — the client does not use the algorithm named in the
challenge. -/
theorem claim_C9_counterexample :
    digestResponse
        [("realm", "R"), ("nonce", "N"), ("qop", "auth"), ("algorithm", "SHA-256")]
        "GET" "/axis-cgi/com/ptz.cgi?pan=1" "u" "p" "0123456789abcdef" =
      digestResponse [("realm", "R"), ("nonce", "N"), ("qop", "auth"), ("algorithm", "MD5")]
        "GET" "/axis-cgi/com/ptz.cgi?pan=1" "u" "p" "0123456789abcdef" ∧
    (digestResponse
        [("realm", "R"), ("nonce", "N"), ("qop", "auth"), ("algorithm", "SHA-256")]
        "GET" "/axis-cgi/com/ptz.cgi?pan=1" "u" "p" "0123456789abcdef").length = 32 ∧
    ¬ (digestResponse
        [("realm", "R"), ("nonce", "N"), ("qop", "auth"), ("algorithm", "SHA-256")]
        "GET" "/axis-cgi/com/ptz.cgi?pan=1" "u" "p" "0123456789abcdef").length = 64 := by
  refine ⟨by decide, md5_length _, ?_⟩
  rw [show (digestResponse
      [("realm", "R"), ("nonce", "N"), ("qop", "auth"), ("algorithm", "SHA-256")]
      "GET" "/axis-cgi/com/ptz.cgi?pan=1" "u" "p" "0123456789abcdef").length = 32
    from md5_length _]
  decide

/-- Claim C8: `fetchWithDigest` issues at most two requests; a non-401
initial response is returned as-is with no second request; on a 401,
once the challenge parses and the digest computes, the original request
is re-issued exactly once with the same method and body and the headers
plus `Authorization`, and that second response is returned verbatim
whatever its status (including a second 401). -/
theorem claim_C8 (net : Request → Response) (url : UrlParts) (method : String)
    (body : Option String) (headers : List (String × String)) (u p cn : String) :
    (fetchWithDigest net url method body headers u p cn).2.length ≤ 2 ∧
    (¬ (net { url := url, method := method, body := body, headers := headers }).status = 401 →
      fetchWithDigest net url method body headers u p cn =
        (.ok (net { url := url, method := method, body := body, headers := headers }),
         [{ url := url, method := method, body := body, headers := headers }])) ∧
    (∀ params authHeader,
      (net { url := url, method := method, body := body, headers := headers }).status = 401 →
      parseDigestHeader (net { url := url, method := method, body := body, headers := headers }).wwwAuthenticate = .ok params →
      authenticate params method (url.pathname ++ url.search) u p cn = .ok authHeader →
      fetchWithDigest net url method body headers u p cn =
        (.ok (net { url := url, method := method, body := body, headers := mapSet headers "Authorization" authHeader }),
         [{ url := url, method := method, body := body, headers := headers },
          { url := url, method := method, body := body, headers := mapSet headers "Authorization" authHeader }])) := by
  by_cases h401 : (net { url := url, method := method, body := body, headers := headers }).status = 401
  · refine ⟨?_, fun hne => absurd h401 hne, fun params authHeader _ hp ha => ?_⟩
    · simp only [fetchWithDigest, h401]
      cases hpd : parseDigestHeader (net { url := url, method := method, body := body, headers := headers }).wwwAuthenticate with
      | error e => simp [hpd]
      | ok ps =>
        cases hauth : authenticate ps method (url.pathname ++ url.search) u p cn with
        | error e => simp [hpd, hauth]
        | ok ah => simp [hpd, hauth]
    · simp only [fetchWithDigest, h401, hp, ha]
      simp
  · refine ⟨?_, fun _ => ?_, fun params authHeader h401x _ _ => absurd h401x h401⟩
    · simp [fetchWithDigest, h401]
    · simp [fetchWithDigest, h401]

/-- Witness for C8: an endpoint answering 200 immediately is returned
as-is after a single request. -/
theorem claim_C8_witness :
    fetchWithDigest plainNet sampleUrl "GET" none [] "u" "p" "0123456789abcdef" =
      (.ok (plainNet { url := sampleUrl, method := "GET", body := none, headers := [] }),
       [{ url := sampleUrl, method := "GET", body := none, headers := [] }]) :=
  (claim_C8 plainNet sampleUrl "GET" none [] "u" "p" "0123456789abcdef").2.1 (by decide)

/-- Claim C2 counterexample: against an endpoint whose Digest challenge
lacks a nonce, `fetchWithDigest` does NOT fail with `ProtocolError` and
DOES issue a second request (interpolating the missing nonce as the
string "undefined"): it returns the second response. -/
theorem claim_C2_counterexample :
    (fetchWithDigest noNonceNet sampleUrl "GET" none [] "u" "p" "0123456789abcdef").2.length = 2 ∧
    ¬ ((fetchWithDigest noNonceNet sampleUrl "GET" none [] "u" "p" "0123456789abcdef").1 =
        .error .protocolError) ∧
    (fetchWithDigest noNonceNet sampleUrl "GET" none [] "u" "p" "0123456789abcdef").1 =
      .ok { status := 200, wwwAuthenticate := none } := by
  have h3 : (fetchWithDigest noNonceNet sampleUrl "GET" none [] "u" "p" "0123456789abcdef").1 =
      .ok { status := 200, wwwAuthenticate := none } := rfl
  refine ⟨rfl, fun hc => ?_, h3⟩
  rw [h3] at hc
  exact Except.noConfusion hc

/-- Claim C2 (amended): on a 401, `fetchWithDigest` fails with
`ProtocolError` after a single request exactly when the
`WWW-Authenticate` header is absent or does not begin with `"Digest "`;
a Digest-prefixed challenge — even one lacking `nonce` — is accepted,
and with non-empty credentials the second request is issued. -/
theorem claim_C2 (net : Request → Response) (url : UrlParts) (method : String)
    (body : Option String) (headers : List (String × String)) (u p cn : String)
    (h401 : (net { url := url, method := method, body := body, headers := headers }).status = 401) :
    ((fetchWithDigest net url method body headers u p cn).1 = .error .protocolError ∧
        (fetchWithDigest net url method body headers u p cn).2.length = 1 ↔
      (∀ hdr, (net { url := url, method := method, body := body, headers := headers }).wwwAuthenticate = some hdr →
        listIsPrefixOf "Digest ".data hdr.data = false)) ∧
    (∀ hdr, (net { url := url, method := method, body := body, headers := headers }).wwwAuthenticate = some hdr →
      listIsPrefixOf "Digest ".data hdr.data = true → ¬ u = "" → ¬ p = "" →
      (fetchWithDigest net url method body headers u p cn).2.length = 2) := by
  cases hww : (net { url := url, method := method, body := body, headers := headers }).wwwAuthenticate with
  | none =>
    constructor
    · constructor
      · intro _ hdr hsome
        exact Option.noConfusion hsome
      · intro _
        constructor
        · simp [fetchWithDigest, h401, hww, parseDigestHeader]
        · simp [fetchWithDigest, h401, hww, parseDigestHeader]
    · intro hdr hsome
      exact Option.noConfusion hsome
  | some hdr0 =>
    by_cases hpre : listIsPrefixOf "Digest ".data hdr0.data = true
    · have hparse : parseDigestHeader (some hdr0) =
          .ok (scanParams (hdr0.length - 7) (hdr0.data.drop 7) []) := by
        simp [parseDigestHeader, hpre]
      constructor
      · constructor
        · rintro ⟨hErr, _⟩
          exfalso
          cases hauth : authenticate (scanParams (hdr0.length - 7) (hdr0.data.drop 7) [])
              method (url.pathname ++ url.search) u p cn with
          | error e =>
            have he : e = .missingCredentials := by
              rw [authenticate] at hauth
              by_cases hcred : u = "" ∨ p = ""
              · rw [if_pos hcred] at hauth
                exact (Except.error.inj hauth).symm
              · rw [if_neg hcred] at hauth
                exact Except.noConfusion hauth
            have hval : (fetchWithDigest net url method body headers u p cn).1 = .error e := by
              simp [fetchWithDigest, h401, hww, hparse, hauth]
            rw [hval] at hErr
            have hep : e = .protocolError := Except.error.inj hErr
            rw [he] at hep
            exact AuthError.noConfusion hep
          | ok ah =>
            have hval : (fetchWithDigest net url method body headers u p cn).1 =
                .ok (net { url := url, method := method, body := body, headers := mapSet headers "Authorization" ah }) := by
              simp [fetchWithDigest, h401, hww, hparse, hauth]
            rw [hval] at hErr
            exact Except.noConfusion hErr
        · intro hRHS
          exact absurd (hRHS hdr0 rfl) (by simp [hpre])
      · intro hdr hsome hpre2 hu hp2
        obtain rfl := Option.some.inj hsome
        cases hauth : authenticate (scanParams (hdr0.length - 7) (hdr0.data.drop 7) [])
            method (url.pathname ++ url.search) u p cn with
        | error e =>
          rw [authenticate, if_neg (not_or.mpr ⟨hu, hp2⟩)] at hauth
          exact Except.noConfusion hauth
        | ok ah =>
          simp [fetchWithDigest, h401, hww, hparse, hauth]
    · have hparse : parseDigestHeader (some hdr0) = .error .protocolError := by
        simp [parseDigestHeader, hpre]
      constructor
      · constructor
        · intro _ hdr hsome
          obtain rfl := Option.some.inj hsome
          simpa using hpre
        · intro _
          constructor <;> simp [fetchWithDigest, h401, hww, hparse]
      · intro hdr hsome hpre2 _ _
        obtain rfl := Option.some.inj hsome
        exact absurd hpre2 hpre

/-- Witness for C2 (amended) against the no-nonce challenge endpoint. -/
theorem claim_C2_witness :
    ((fetchWithDigest noNonceNet sampleUrl "GET" none [] "u" "p" "0123456789abcdef").1 =
          .error .protocolError ∧
        (fetchWithDigest noNonceNet sampleUrl "GET" none [] "u" "p" "0123456789abcdef").2.length = 1 ↔
      (∀ hdr, (noNonceNet { url := sampleUrl, method := "GET", body := none, headers := [] }).wwwAuthenticate = some hdr →
        listIsPrefixOf "Digest ".data hdr.data = false)) ∧
    (∀ hdr, (noNonceNet { url := sampleUrl, method := "GET", body := none, headers := [] }).wwwAuthenticate = some hdr →
      listIsPrefixOf "Digest ".data hdr.data = true → ¬ "u" = "" → ¬ "p" = "" →
      (fetchWithDigest noNonceNet sampleUrl "GET" none [] "u" "p" "0123456789abcdef").2.length = 2) :=
  claim_C2 noNonceNet sampleUrl "GET" none [] "u" "p" "0123456789abcdef" rfl

/-- Claim C9 (amended): the digest computation always uses MD5 and is
insensitive to any `algorithm` parameter of the challenge — setting it
to any value leaves the whole Authorization header unchanged, and the
response is always a 32-character MD5 hex digest. -/
theorem claim_C9 (params : List (String × String))
    (a method digestUri username password cnonce : String) :
    authenticate (mapSet params "algorithm" a) method digestUri username password cnonce =
      authenticate params method digestUri username password cnonce ∧
    (digestResponse params method digestUri username password cnonce).length = 32 := by
  have h1 := jsProp_mapSet_ne params "algorithm" "realm" a (by decide)
  have h2 := jsProp_mapSet_ne params "algorithm" "nonce" a (by decide)
  have h3 := jsProp_mapSet_ne params "algorithm" "qop" a (by decide)
  exact ⟨by simp only [authenticate, digestResponse, digestHA1, digestHA2, h1, h2, h3],
    md5_length _⟩

end CESIS
